import Mathlib

/-!
# Verification of the MemeGen core against its specification

This file gives a shallow embedding of the algorithmic core of the MemeGen
repository: the trend-aggregation endpoint (`GET /api/trends`), the two-stage
meme-generation endpoint (`POST /api/generate`, image-first and text-only
paths), and the style-guide synthesis endpoint (`POST /api/style-guide`).

JavaScript strings are modelled as `List Char` (`Str`); JS numbers that carry
engagement counts or running means are modelled as `ℚ` (the JS float update
order is reproduced symbolically); the language-model collaborator's responses
are inputs to the embedded functions; model invocations are counted
explicitly so that "no model call is issued" claims can be stated.
Unicode-specific JS details (non-ASCII case folding, U+2028/U+2029 line
terminators, non-ASCII whitespace classes) are elided: the embedding treats
the ASCII whitespace/case classes, which is what every claim exercises.
-/

/-- JS strings are modelled as lists of characters. -/
abbrev Str := List Char

/-- JS `\s` / `trim` whitespace class (ASCII part). -/
def jsIsWhitespace (c : Char) : Bool :=
  c = ' ' ∨ c = '\t' ∨ c = '\n' ∨ c = '\r' ∨ c = '\x0b' ∨ c = '\x0c'

/-- JS line terminators recognised by a multiline `$` (ASCII part). -/
def jsIsLineTerm (c : Char) : Bool :=
  c = '\n' ∨ c = '\r'

/-- `String.prototype.trim`: remove leading and trailing whitespace. -/
def trimL (s : Str) : Str :=
  ((s.dropWhile jsIsWhitespace).reverse.dropWhile jsIsWhitespace).reverse

/-- ASCII lowercasing of one character (JS `toLowerCase`, ASCII part). -/
def lowerChar (c : Char) : Char :=
  if 'A' ≤ c ∧ c ≤ 'Z' then Char.ofNat (c.toNat + 32) else c

/-- JS `toLowerCase` (ASCII part). -/
def toLowerL (s : Str) : Str := s.map lowerChar

/-- JS string truthiness: non-empty. -/
def strTruthy (s : Str) : Bool := s ≠ []

/-- JS `a || b` on a nullable string `a`: `b` when `a` is null or empty. -/
def strOrElse (a : Option Str) (b : Str) : Str :=
  match a with
  | some s => if s = [] then b else s
  | none => b

/-- JS truthiness of a nullable string (`null` and `""` are falsy). -/
def jsTruthy : Option Str → Bool
  | none => false
  | some s => strTruthy s

/-- `split("---")`, scanning left to right, taking non-overlapping
separator occurrences (JS `String.prototype.split` with this literal). -/
def splitDashesAux : Str → Str → List Str
  | acc, '-' :: '-' :: '-' :: rest => acc.reverse :: splitDashesAux [] rest
  | acc, c :: rest => splitDashesAux (c :: acc) rest
  | acc, [] => [acc.reverse]

/-- `generatedText.split("---")`. -/
def splitDashes (s : Str) : List Str := splitDashesAux [] s

/-! ## Trend aggregation (`GET /api/trends`, `src/unnamed/part_003`) -/

/-- The analyzed-post fields read by the trends endpoint
(`select("id, topics, likes, ...")`); `topics` and `likes` are nullable. -/
structure AnalyzedMeme where
  id : Str
  topics : Option (List Str)
  likes : Option ℚ
deriving DecidableEq

/-- `interface TopicTrend` from the trends route. -/
structure TopicTrend where
  topic : Str
  count : Nat
  avgLikes : ℚ
  memeIds : List Str
deriving DecidableEq

/-- `topic.toLowerCase().trim()` — the trend-bucket merge key. -/
def normTopic (t : Str) : Str := trimL (toLowerL t)

/-- `meme.likes || 0`. -/
def memeLikes (m : AnalyzedMeme) : ℚ := m.likes.getD 0

/-- `topicMap.get(key)` on the insertion-ordered association list that
models the JS `Map`. -/
def lookupKey : List (Str × TopicTrend) → Str → Option TopicTrend
  | [], _ => none
  | (k', v) :: rest, k => if k' = k then some v else lookupKey rest k

/-- `topicMap.set(key, v)` for a key already present: replace in place,
keeping insertion order (JS `Map` semantics). -/
def setKey : List (Str × TopicTrend) → Str → TopicTrend → List (Str × TopicTrend)
  | [], k, v => [(k, v)]
  | (k', v') :: rest, k, v =>
      if k' = k then (k, v) :: rest else (k', v') :: setKey rest k v

/-- The body of the inner topic loop of the trends route: merge one
`(topic, likes, memeId)` occurrence into the map.  On a hit the count is
incremented and `avgLikes` is updated by
`(avgLikes*(count-1) + newLikes)/count`; on a miss a bucket is seeded with
`count = 1`, `avgLikes = likes` and the original (un-normalized) topic as
display label. -/
def foldTopic (tm : List (Str × TopicTrend)) (memeId : Str) (likes : ℚ)
    (topic : Str) : List (Str × TopicTrend) :=
  let key := normTopic topic
  match lookupKey tm key with
  | some ex =>
      let count' := ex.count + 1
      setKey tm key
        { topic := ex.topic
          count := count'
          avgLikes := (ex.avgLikes * ((count' : ℚ) - 1) + likes) / (count' : ℚ)
          memeIds := ex.memeIds ++ [memeId] }
  | none => tm ++ [(key, { topic := topic, count := 1, avgLikes := likes, memeIds := [memeId] })]

/-- The body of the outer post loop: `if (!meme.topics) continue;` then the
inner loop over the post's topics. -/
def foldMeme (tm : List (Str × TopicTrend)) (meme : AnalyzedMeme) :
    List (Str × TopicTrend) :=
  match meme.topics with
  | none => tm
  | some ts => ts.foldl (fun acc t => foldTopic acc meme.id (memeLikes meme) t) tm

/-- The full aggregation loop of the trends route (`topicMap` after the
`for (const meme of memes)` loop). -/
def aggregateTopics (memes : List AnalyzedMeme) : List (Str × TopicTrend) :=
  memes.foldl foldMeme []

/-- One topic occurrence: the topic string with the contributing post's
likes and id. -/
structure TEvent where
  topic : Str
  likes : ℚ
  memeId : Str
deriving DecidableEq

/-- The topic occurrences contributed by one post, in loop order. -/
def memeEvents (m : AnalyzedMeme) : List TEvent :=
  match m.topics with
  | none => []
  | some ts => ts.map fun t => ⟨t, memeLikes m, m.id⟩

/-- All topic occurrences of a post list, in loop order. -/
def allEvents (memes : List AnalyzedMeme) : List TEvent :=
  memes.flatMap memeEvents

/-- Merge a single occurrence (curried form of `foldTopic`). -/
def stepEvent (tm : List (Str × TopicTrend)) (e : TEvent) :
    List (Str × TopicTrend) :=
  foldTopic tm e.memeId e.likes e.topic

/-- The likes values of the occurrences of bucket key `k` within an
occurrence list, in order. -/
def eventContribs (es : List TEvent) (k : Str) : List ℚ :=
  es.filterMap fun e => if normTopic e.topic = k then some e.likes else none

/-- The topic string (original casing) of the first occurrence whose
normalization is `k`. -/
def eventFirst (es : List TEvent) (k : Str) : Option Str :=
  (es.find? fun e => normTopic e.topic = k).map TEvent.topic

/-- The likes values of the occurrences that merge into bucket `k`,
in occurrence order. -/
def topicContributions (memes : List AnalyzedMeme) (k : Str) : List ℚ :=
  eventContribs (allEvents memes) k

/-- The first topic string (original casing) whose normalization is `k`. -/
def firstSeenTopic (memes : List AnalyzedMeme) (k : Str) : Option Str :=
  eventFirst (allEvents memes) k

/-! ### Ranking (`Array.from(topicMap.values()).sort(...).slice(0, 20)`) -/

/-- The comparator key `count * Math.log(avgLikes + 1)`. -/
noncomputable def popScore (t : TopicTrend) : ℝ :=
  (t.count : ℝ) * Real.log ((t.avgLikes : ℝ) + 1)

/-- Descending comparison on the popularity score (the JS comparator
`(a, b) => b.score - a.score` sorts in descending score order). -/
noncomputable def popGE (a b : TopicTrend) : Bool :=
  @decide (popScore b ≤ popScore a) (Real.decidableLE _ _)

/-- `Array.from(topicMap.values()).sort(byScoreDesc).slice(0, 20)`. -/
noncomputable def rankTrends (tm : List (Str × TopicTrend)) : List TopicTrend :=
  ((tm.map Prod.snd).mergeSort popGE).take 20

/-- The trend list returned by `GET /api/trends` for a window of posts. -/
noncomputable def trendsFor (memes : List AnalyzedMeme) : List TopicTrend :=
  rankTrends (aggregateTopics memes)

/-! ## Meme generation parsing (`POST /api/generate`, `src/unnamed/part_001`) -/

/-- Remainder of `s` after the first literal occurrence of `"TEXT:"`
(the starting point of `/TEXT:\s*([\s\S]+?)$/m`); `none` when the marker
does not occur. -/
def afterTEXT : Str → Option Str
  | 'T' :: 'E' :: 'X' :: 'T' :: ':' :: rest => some rest
  | _ :: rest => afterTEXT rest
  | [] => none

/-- The capture of `\s*([\s\S]+?)$` (multiline, lazy) on `r`: greedy
whitespace skip, then the shortest non-empty run ending at a line
boundary.  When `r` is non-empty but all whitespace, backtracking leaves
exactly the last character for the capture group. -/
def lazyLineCapture (r : Str) : Option Str :=
  if h : r = [] then none
  else
    let rest := r.dropWhile jsIsWhitespace
    if rest = [] then some [r.getLast h]
    else some (rest.takeWhile fun c => ¬ jsIsLineTerm c)

/-- `block.match(/TEXT:\s*([\s\S]+?)$/m)` — the capture group, if the
regex matches. -/
def matchTEXT (block : Str) : Option Str :=
  (afterTEXT block).bind lazyLineCapture

/-- Decimal value of a digit run (JS `parseInt` on a `\d+` capture). -/
def digitsToNat (ds : Str) : Nat :=
  ds.foldl (fun acc c => 10 * acc + (c.toNat - '0'.toNat)) 0

/-- Does `s` start with `"image"` case-insensitively?  If so, return the
remainder (the `/Image/i` literal of both image regexes). -/
def imageCIPrefix (s : Str) : Option Str :=
  match s with
  | c1 :: c2 :: c3 :: c4 :: c5 :: rest =>
      if lowerChar c1 = 'i' ∧ lowerChar c2 = 'm' ∧ lowerChar c3 = 'a' ∧
         lowerChar c4 = 'g' ∧ lowerChar c5 = 'e' then some rest else none
  | _ => none

/-- Attempt `/Image\s*(\d+)/i` anchored at the start of `s`: the captured
number, when the pattern matches here. -/
def tryImageNumAt (s : Str) : Option Nat :=
  match imageCIPrefix s with
  | none => none
  | some afterImage =>
      let afterWs := afterImage.dropWhile jsIsWhitespace
      let digits := afterWs.takeWhile Char.isDigit
      if digits = [] then none else some (digitsToNat digits)

/-- `block.match(/Image\s*(\d+)/i)` — scan start positions left to right
for the first full match, returning the parsed number. -/
def scanImageNum : Str → Option Nat
  | [] => none
  | c :: rest =>
      match tryImageNumAt (c :: rest) with
      | some n => some n
      | none => scanImageNum rest

/-- Attempt `/Image\s*\d+:?/i` anchored at the start of `s`: the remainder
after the matched span (digits, then an optional colon), when it matches
here. -/
def tryImageLabelAt (s : Str) : Option Str :=
  match imageCIPrefix s with
  | none => none
  | some afterImage =>
      let afterWs := afterImage.dropWhile jsIsWhitespace
      let digits := afterWs.takeWhile Char.isDigit
      if digits = [] then none
      else
        match afterWs.drop digits.length with
        | ':' :: rest => some rest
        | rest => some rest

/-- `block.replace(/Image\s*\d+:?/i, "")` — remove the first match of the
label pattern, leaving everything else in place. -/
def stripImageLabel : Str → Str
  | [] => []
  | c :: rest =>
      match tryImageLabelAt (c :: rest) with
      | some remainder => remainder
      | none => c :: stripImageLabel rest

/-- A parsed generation item as produced by the response parsers
(`{ text, image_suggestion, image_url }`); the suggestion is kept as the
numeric position (the source formats it as `"Image <p>"`). -/
structure ParsedMeme where
  text : Str
  image_suggestion : Option Nat
  image_url : Option Str
deriving DecidableEq

/-- One entry of `imagePositionMap`: 1-based position among the selected
images, the original catalog index, and the image's URL. -/
structure PosMapEntry where
  position : Nat
  originalIndex : Nat
  url : Str
deriving DecidableEq

/-- The `if (imageNumMatch) {...}` step of the per-block parser: the
`(imageUrl, imagePosition)` pair after attempting label resolution
through the position map. -/
def resolveByLabel (posMap : List PosMapEntry) :
    Option Nat → Option Str × Option Nat
  | some p =>
      match posMap.find? (fun m => m.position = p) with
      | some mapped => (some mapped.url, some p)
      | none => (none, some p)
  | none => (none, none)

/-- The `if (!imageUrl && imagePositionMap[idx]) {...}` step: assign the
image at the block's own ordinal position when the label left no truthy
URL. -/
def applyOrdinalFallback (posMap : List PosMapEntry) (idx : Nat)
    (st : Option Str × Option Nat) : Option Str × Option Nat :=
  if jsTruthy st.1 then st
  else
    match posMap.get? idx with
    | some entry => (some entry.url, some entry.position)
    | none => st

/-- The per-block body of the image-first parser (`memeBlocks.map`):
`TEXT:` capture or label-stripped remainder for the text; image resolved
by `Image <n>` label through the position map, with an ordinal fallback
on the block index; the suggestion is null when `imagePosition` is falsy
(null or 0). -/
def parseOneBlock (posMap : List PosMapEntry) (idx : Nat) (block : Str) :
    ParsedMeme :=
  let st := applyOrdinalFallback posMap idx (resolveByLabel posMap (scanImageNum block))
  { text :=
      match matchTEXT block with
      | some cap => trimL cap
      | none => trimL (stripImageLabel block)
    image_suggestion :=
      match st.2 with
      | some p => if p = 0 then none else some p
      | none => none
    image_url := st.1 }

/-- Split on `"---"` and keep the blocks that are non-empty after
trimming (`.split("---").filter((block) => block.trim())`). -/
def nonemptyBlocks (resp : Str) : List Str :=
  (splitDashes resp).filter fun b => strTruthy (trimL b)

/-- The image-first response parser (`generatedMemes` in the source):
per-block parsing followed by the keep-filter
`.filter((m) => m.text && m.image_url)`. -/
def parseImageFirst (resp : Str) (posMap : List PosMapEntry) :
    List ParsedMeme :=
  ((nonemptyBlocks resp).enum.map fun p => parseOneBlock posMap p.1 p.2).filter
    fun m => strTruthy m.text ∧ jsTruthy m.image_url

/-- Attempt `/\d+\.\s*([\s\S]+)/` anchored at the start of `s`: a digit
run, a dot, greedy whitespace, then the greedy non-empty capture. -/
def tryNumberedAt (s : Str) : Option Str :=
  let ds := s.takeWhile Char.isDigit
  if ds = [] then none
  else
    match s.drop ds.length with
    | '.' :: rest =>
        if h : rest = [] then none
        else
          let rest' := rest.dropWhile jsIsWhitespace
          if rest' = [] then some [rest.getLast h] else some rest'
    | _ => none

/-- `block.match(/\d+\.\s*([\s\S]+)/)` — scan start positions left to
right for the first full match, returning the capture group. -/
def matchNumbered : Str → Option Str
  | [] => none
  | c :: rest =>
      match tryNumberedAt (c :: rest) with
      | some cap => some cap
      | none => matchNumbered rest

/-- The text-only response parser (`memes` in
`handleTextOnlyGeneration`): split, drop trim-empty blocks, take the
`N.`-marker capture (or the whole block) trimmed, drop empty texts; every
item carries null image fields. -/
def parseTextOnly (resp : Str) : List ParsedMeme :=
  ((nonemptyBlocks resp).map fun block =>
      { text :=
          match matchNumbered block with
          | some cap => trimL cap
          | none => trimL block
        image_suggestion := none
        image_url := none }).filter
    fun m => strTruthy m.text

/-! ## Image-first orchestration (`POST /api/generate`) -/

/-- The post fields read by the image-first flow
(`select("id, images, image_analysis, topics, text")`). -/
structure Post where
  id : Str
  images : Option (List Str)
  image_analysis : Option Str
  topics : Option (List Str)
  text : Option Str
deriving DecidableEq

/-- `m.images && Array.isArray(m.images) && m.images.length > 0`. -/
def postHasImages (m : Post) : Bool :=
  match m.images with
  | some imgs => imgs.length > 0
  | none => false

/-- One `imagesCatalog` entry: 1-based build-order index, URL, description
(`image_analysis || text || "No description"`), and original text. -/
structure CatalogEntry where
  index : Nat
  url : Str
  description : Str
  originalText : Str
deriving DecidableEq

/-- Push one post's images onto the catalog, assigning
`index = imagesCatalog.length + 1` on each push. -/
def pushPostImages (cat : List CatalogEntry) (meme : Post) : List CatalogEntry :=
  match meme.images with
  | some imgs =>
      if imgs.length > 0 then
        imgs.foldl (fun acc imgUrl =>
          acc ++ [{ index := acc.length + 1
                    url := imgUrl
                    description :=
                      strOrElse meme.image_analysis
                        (strOrElse meme.text "No description".toList)
                    originalText := strOrElse meme.text [] }]) cat
      else cat
  | none => cat

/-- `imagesCatalog` built by the `memesWithImages.forEach` loop. -/
def buildCatalog (memesWithImages : List Post) : List CatalogEntry :=
  memesWithImages.foldl pushPostImages []

/-- `selection.selectedImages.map(sel => imagesCatalog.find(img =>
img.index === sel.imageNumber)).filter(Boolean)` — the resolved subset of
catalog entries, in the order chosen. -/
def resolveSelection (catalog : List CatalogEntry) (sel : List Nat) :
    List CatalogEntry :=
  (sel.map fun n => catalog.find? fun img => img.index = n).filterMap id

/-- `imagePositionMap`: 1-based position per selected image. -/
def buildPositionMap (selected : List CatalogEntry) : List PosMapEntry :=
  selected.enum.map fun p => ⟨p.1 + 1, p.2.index, p.2.url⟩

/-- `Math.min(count, 3)` — the number of images the selection prompt asks the
model to pick. -/
def requestedSelectCount (count : Nat) : Nat := min count 3

/-- Caller-facing error outcomes of the generation endpoint. -/
inductive GenError where
  | MissingTopic
  | NoImagesAvailable
  | NoSuitableImages
deriving DecidableEq

/-- The successful image-first response payload: parsed memes plus the
`imagesUsed`/`imagesConsidered` counts. -/
structure GenOutcome where
  memes : List ParsedMeme
  imagesUsed : Nat
  imagesConsidered : Nat
deriving DecidableEq

/-- The image-first flow of `POST` (formats `"image"`/`"both"`), with the
two model responses (selection numbers, raw generation text) as inputs.
The second component counts model invocations issued before returning:
the `NoImagesAvailable` guard fires before any call, the empty-selection
guard fires after the selection call, and a full run issues exactly two
calls. -/
def imageFirstFlow (recent : List Post) (selResp : List Nat) (genResp : Str) :
    Except GenError GenOutcome × Nat :=
  let memesWithImages := recent.filter postHasImages
  if memesWithImages.length = 0 then (.error .NoImagesAvailable, 0)
  else
    let catalog := buildCatalog memesWithImages
    -- model call 1: image selection (structured output `selResp`)
    if selResp.length = 0 then (.error .NoSuitableImages, 1)
    else
      let selected := resolveSelection catalog selResp
      let posMap := buildPositionMap selected
      -- model call 2: multimodal text generation (raw text `genResp`)
      let parsed := parseImageFirst genResp posMap
      (.ok ⟨parsed, selected.length, catalog.length⟩, 2)

/-! ## Persistence of generated memes -/

/-- The object literal passed to `.insert(...)` on `generated_memes` —
these are the only columns the generation endpoint writes. -/
structure InsertPayload where
  topic : Str
  style : Str
  format : Str
  text_content : Str
  reference_meme_ids : List Str
deriving DecidableEq

/-- A stored `generated_memes` row; columns absent from the insert payload
take their defaults, in particular `image_url` is null (§3 of the spec:
nullable `image_url`). -/
structure GeneratedMemeRow where
  topic : Str
  style : Str
  format : Str
  text_content : Str
  reference_meme_ids : List Str
  image_url : Option Str
deriving DecidableEq

/-- The row created by inserting a payload (missing columns default). -/
def storedRow (p : InsertPayload) : GeneratedMemeRow :=
  ⟨p.topic, p.style, p.format, p.text_content, p.reference_meme_ids, none⟩

/-- The insert issued per generated meme on the image-first path
(`topic, style, format, text_content: meme.text, reference_meme_ids: []`). -/
def imageFirstInsert (topic style format : Str) (m : ParsedMeme) : InsertPayload :=
  ⟨topic, style, format, m.text, []⟩

/-- The rows written by the image-first save loop. -/
def persistImageFirst (topic style format : Str) (memes : List ParsedMeme) :
    List GeneratedMemeRow :=
  memes.map fun m => storedRow (imageFirstInsert topic style format m)

/-- The insert issued per generated meme on the text-only path (`format`
is the literal `"text-only"`). -/
def textOnlyInsert (topic style : Str) (m : ParsedMeme) : InsertPayload :=
  ⟨topic, style, "text-only".toList, m.text, []⟩

/-- The rows written by the text-only save loop. -/
def persistTextOnly (topic style : Str) (memes : List ParsedMeme) :
    List GeneratedMemeRow :=
  memes.map fun m => storedRow (textOnlyInsert topic style m)

/-! ## Style-guide synthesis (`POST /api/style-guide`) -/

/-- The response shape of the style-guide POST handler.  `guide` carries
the synthesized content (modelled as an opaque string), `saved` is the
explicit save-status flag (`some false` exactly when persistence failed
after a successful model call; the full-success response carries no
`saved` field), `errorMsg` the caller-facing failure message. -/
structure SGResponse where
  success : Bool
  guide : Option Str
  saved : Option Bool
  memeCount : Option Nat
  errorMsg : Option Str
deriving DecidableEq

/-- `"No analyzed memes found. Analyze some memes first."`. -/
def noAnalyzedMsg : Str := "No analyzed memes found. Analyze some memes first.".toList

/-- The style-guide POST handler.  Inputs: whether the corpus fetch
errored, the fetched analyzed posts (`none` models a null result), the
model's synthesized content, and whether the snapshot insert fails.  The
second component counts model invocations: the
`fetchError || !memes || memes.length === 0` guard returns before the
single `generateObject` call. -/
def styleGuidePOST (fetchError : Bool) (memes : Option (List Post))
    (content : Str) (saveError : Bool) : SGResponse × Nat :=
  if fetchError ∨ memes = none ∨ (memes.getD []).length = 0 then
    ({ success := false, guide := none, saved := none, memeCount := none
       errorMsg := some noAnalyzedMsg }, 0)
  else
    -- model call: generateObject with the style-guide schema
    if saveError then
      ({ success := true, guide := some content, saved := some false
         memeCount := none, errorMsg := none }, 1)
    else
      ({ success := true, guide := some content, saved := none
         memeCount := some (memes.getD []).length, errorMsg := none }, 1)

/-! ## Concrete example data used by witnesses and counterexamples -/

/-- Posts tagged `["AI"]`, `["ai"]`, `["Startups"]` with likes 10, 20, 5
(§8.2 of the spec). -/
def exTrendMemes : List AnalyzedMeme :=
  [⟨"m1".toList, some ["AI".toList], some 10⟩,
   ⟨"m2".toList, some ["ai".toList], some 20⟩,
   ⟨"m3".toList, some ["Startups".toList], some 5⟩]

/-- The expected merged AI bucket: displayed `"AI"`, `count = 2`,
`avgLikes = 15`. -/
def exAIBucket : TopicTrend :=
  ⟨"AI".toList, 2, 15, ["m1".toList, "m2".toList]⟩

/-- A two-image positional manifest with URLs `"u1"`, `"u2"`. -/
def exPosMap : List PosMapEntry :=
  [⟨1, 3, "u1".toList⟩, ⟨2, 7, "u2".toList⟩]

/-- An image-first response whose second block lacks a `TEXT:` marker but
carries an `Image 2:` label. -/
def exImageResp : Str :=
  "Image 1:\nTEXT: hello there\n---\nImage 2: plain remainder".toList

/-- The text-only response of §8.6 of the spec. -/
def exTextResp : Str := "1. foo\n---\n2. bar\n---\n   \n".toList

/-- A single recent post carrying one image. -/
def exImagePost : Post :=
  ⟨"p1".toList, some ["http://img/1".toList], some "a cat".toList, none,
   some "lol".toList⟩

/-- A single recent post with four images (catalog indices 1–4). -/
def exFourImagePost : Post :=
  ⟨"p2".toList,
   some ["i1".toList, "i2".toList, "i3".toList, "i4".toList],
   some "desc".toList, none, some "t".toList⟩

/-- A generation response with four labelled blocks, one per image. -/
def exFourBlockResp : Str :=
  "Image 1:\nTEXT: a\n---\nImage 2:\nTEXT: b\n---\nImage 3:\nTEXT: c\n---\nImage 4:\nTEXT: d".toList

/-- Two recent posts with no images at all. -/
def exNoImagePosts : List Post :=
  [⟨"q1".toList, none, none, some ["x".toList], some "t1".toList⟩,
   ⟨"q2".toList, some [], none, none, some "t2".toList⟩]

deriving instance DecidableEq for Except

/-! # Theorems -/

/-! ## Association-list lemmas for the topic map -/

theorem lookupKey_append_single (tm : List (Str × TopicTrend)) (k₂ k : Str)
    (v : TopicTrend) :
    lookupKey (tm ++ [(k₂, v)]) k =
      match lookupKey tm k with
      | some b => some b
      | none => if k₂ = k then some v else none := by
  induction tm with
  | nil => simp [lookupKey]
  | cons p rest ih =>
      obtain ⟨k', v'⟩ := p
      by_cases h : k' = k <;> simp [lookupKey, h, ih]

theorem lookupKey_setKey (tm : List (Str × TopicTrend)) (key k : Str)
    (v ex : TopicTrend) (h : lookupKey tm key = some ex) :
    lookupKey (setKey tm key v) k =
      if key = k then some v else lookupKey tm k := by
  induction tm with
  | nil => simp [lookupKey] at h
  | cons p rest ih =>
      obtain ⟨k', v'⟩ := p
      simp only [lookupKey] at h
      by_cases hk : k' = key
      · subst hk
        simp only [setKey, if_pos rfl]
        by_cases h2 : k' = k
        · subst h2; simp [lookupKey]
        · simp [lookupKey, h2]
      · simp only [setKey, if_neg hk]
        rw [if_neg hk] at h
        by_cases h2 : k' = k
        · subst h2
          rw [if_neg (fun hkk => hk hkk.symm)]
          simp [lookupKey]
        · simp only [lookupKey, if_neg h2]
          exact ih h

/-! ## Bridging the nested aggregation loop to a single occurrence fold -/

theorem foldMeme_eq_eventsFold (acc : List (Str × TopicTrend))
    (m : AnalyzedMeme) :
    foldMeme acc m = (memeEvents m).foldl stepEvent acc := by
  cases h : m.topics with
  | none => simp [foldMeme, memeEvents, h]
  | some ts => simp [foldMeme, memeEvents, h, List.foldl_map, stepEvent]

theorem foldl_foldMeme_eq (memes : List AnalyzedMeme) :
    ∀ acc, memes.foldl foldMeme acc = (allEvents memes).foldl stepEvent acc := by
  induction memes with
  | nil => intro acc; simp [allEvents]
  | cons m ms ih =>
      intro acc
      simp only [List.foldl_cons, allEvents, List.flatMap_cons, List.foldl_append]
      rw [foldMeme_eq_eventsFold]
      exact ih _

theorem aggregateTopics_eq_eventsFold (memes : List AnalyzedMeme) :
    aggregateTopics memes = (allEvents memes).foldl stepEvent [] :=
  foldl_foldMeme_eq memes []

/-! ## The running-mean invariant of the occurrence fold -/

theorem eventContribs_append_single (es : List TEvent) (e : TEvent) (k : Str) :
    eventContribs (es ++ [e]) k =
      eventContribs es k ++
        (if normTopic e.topic = k then [e.likes] else []) := by
  by_cases h : normTopic e.topic = k <;>
    simp [eventContribs, List.filterMap_append, h]

theorem eventFirst_append_single (es : List TEvent) (e : TEvent) (k : Str) :
    eventFirst (es ++ [e]) k =
      (eventFirst es k).or
        (if normTopic e.topic = k then some e.topic else none) := by
  by_cases h : normTopic e.topic = k <;>
    cases hf : (es.find? fun e => normTopic e.topic = k) <;>
      simp [eventFirst, List.find?_append, hf, h, Option.or]


theorem lookupKey_append_single_of_none (tm : List (Str × TopicTrend))
    (k₂ k : Str) (v : TopicTrend) (h : lookupKey tm k = none) :
    lookupKey (tm ++ [(k₂, v)]) k = if k₂ = k then some v else none := by
  rw [lookupKey_append_single, h]

theorem lookupKey_append_single_of_some (tm : List (Str × TopicTrend))
    (k₂ k : Str) (v b : TopicTrend) (h : lookupKey tm k = some b) :
    lookupKey (tm ++ [(k₂, v)]) k = some b := by
  rw [lookupKey_append_single, h]

theorem foldTopic_of_none (tm : List (Str × TopicTrend)) (memeId : Str)
    (likes : ℚ) (topic : Str)
    (h : lookupKey tm (normTopic topic) = none) :
    foldTopic tm memeId likes topic =
      tm ++ [(normTopic topic, ⟨topic, 1, likes, [memeId]⟩)] := by
  simp [foldTopic, h]

theorem foldTopic_of_some (tm : List (Str × TopicTrend)) (memeId : Str)
    (likes : ℚ) (topic : Str) (ex : TopicTrend)
    (h : lookupKey tm (normTopic topic) = some ex) :
    foldTopic tm memeId likes topic =
      setKey tm (normTopic topic)
        ⟨ex.topic, ex.count + 1,
          (ex.avgLikes * (((ex.count + 1 : ℕ) : ℚ) - 1) + likes) /
            ((ex.count + 1 : ℕ) : ℚ),
          ex.memeIds ++ [memeId]⟩ := by
  simp [foldTopic, h]

theorem eventsFold_spec (es : List TEvent) :
    ∀ k : Str,
      (∀ b, lookupKey (es.foldl stepEvent []) k = some b →
        0 < b.count ∧ b.count = (eventContribs es k).length ∧
        (b.count : ℚ) * b.avgLikes = (eventContribs es k).sum ∧
        eventFirst es k = some b.topic) ∧
      (lookupKey (es.foldl stepEvent []) k = none →
        eventContribs es k = [] ∧ eventFirst es k = none) := by
  induction es using List.reverseRecOn with
  | nil =>
      intro k
      refine ⟨fun b hb => ?_, fun _ => ?_⟩
      · simp [lookupKey] at hb
      · simp [eventContribs, eventFirst]
  | append_singleton es e ih =>
      intro k
      rw [List.foldl_append, List.foldl_cons, List.foldl_nil,
        eventContribs_append_single, eventFirst_append_single]
      simp only [stepEvent]
      rcases hl : lookupKey (es.foldl stepEvent []) (normTopic e.topic)
        with _ | ex
      · -- this occurrence opens a new bucket, appended at the end
        rw [foldTopic_of_none _ _ _ _ hl]
        rcases hk : lookupKey (es.foldl stepEvent []) k with _ | b
        · rw [lookupKey_append_single_of_none _ _ _ _ hk]
          obtain ⟨hc, hf⟩ := (ih k).2 hk
          by_cases hkey : normTopic e.topic = k
          · rw [if_pos hkey, if_pos hkey, if_pos hkey, hc, hf]
            refine ⟨fun b hb => ?_, fun hb => by simp at hb⟩
            obtain rfl : (⟨e.topic, 1, e.likes, [e.memeId]⟩ : TopicTrend) = b :=
              Option.some.inj hb
            exact ⟨Nat.one_pos, by simp, by simp, by simp [Option.or]⟩
          · rw [if_neg hkey, if_neg hkey, if_neg hkey, hc, hf]
            exact ⟨fun b hb => by simp at hb, fun _ => by simp [Option.or]⟩
        · rw [lookupKey_append_single_of_some _ _ _ _ _ hk]
          have hkey : ¬ normTopic e.topic = k := by
            intro h; rw [h, hk] at hl; exact Option.noConfusion hl
          rw [if_neg hkey, if_neg hkey]
          obtain ⟨hpos, hlen, hsum, hfirst⟩ := (ih k).1 b hk
          refine ⟨fun b' hb' => ?_, fun hb' => by simp at hb'⟩
          obtain rfl : b = b' := Option.some.inj hb'
          refine ⟨hpos, by simpa using hlen, by simpa using hsum, ?_⟩
          rw [hfirst]; simp [Option.or]
      · -- this occurrence updates the existing bucket in place
        rw [foldTopic_of_some _ _ _ _ _ hl]
        rw [lookupKey_setKey _ _ _ _ _ hl]
        by_cases hkey : normTopic e.topic = k
        · rw [if_pos hkey, if_pos hkey, if_pos hkey]
          rw [hkey] at hl
          obtain ⟨hpos, hlen, hsum, hfirst⟩ := (ih k).1 ex hl
          refine ⟨fun b hb => ?_, fun hb => by simp at hb⟩
          obtain rfl :
              (⟨ex.topic, ex.count + 1,
                (ex.avgLikes * (((ex.count + 1 : ℕ) : ℚ) - 1) + e.likes) /
                  ((ex.count + 1 : ℕ) : ℚ),
                ex.memeIds ++ [e.memeId]⟩ : TopicTrend) = b :=
            Option.some.inj hb
          have hc : ((ex.count + 1 : ℕ) : ℚ) ≠ 0 := by
            exact_mod_cast Nat.succ_ne_zero ex.count
          refine ⟨Nat.succ_pos _, by simp [hlen], ?_, ?_⟩
          · show ((ex.count + 1 : ℕ) : ℚ) *
              ((ex.avgLikes * (((ex.count + 1 : ℕ) : ℚ) - 1) + e.likes) /
                ((ex.count + 1 : ℕ) : ℚ)) = _
            rw [mul_div_cancel₀ _ hc, List.sum_append, List.sum_singleton]
            rw [← hsum]
            push_cast
            ring
          · rw [hfirst]; simp [Option.or]
        · rw [if_neg hkey, if_neg hkey, if_neg hkey]
          rcases hk : lookupKey (es.foldl stepEvent []) k with _ | b
          · obtain ⟨hc, hf⟩ := (ih k).2 hk
            rw [hc, hf]
            exact ⟨fun b hb => by simp at hb, fun _ => by simp [Option.or]⟩
          · obtain ⟨hpos, hlen, hsum, hfirst⟩ := (ih k).1 b hk
            refine ⟨fun b' hb' => ?_, fun hb' => by simp at hb'⟩
            obtain rfl : b = b' := Option.some.inj hb'
            refine ⟨hpos, by simpa using hlen, by simpa using hsum, ?_⟩
            rw [hfirst]; simp [Option.or]

/-! ## C1 — trend aggregation computes a plain running mean per bucket -/

/-- **C1.** For every window of analyzed posts, every bucket produced by
the trend aggregation (seeded with `count = 1` and the post's likes — 0
when missing — and updated on each further occurrence of the same
lowercased+trimmed key by `avgLikes = (avgLikes*(count-1)+newLikes)/count`)
satisfies: `count` is the number of contributing occurrences, `avgLikes`
is the plain running mean of their likes, and the display label is the
first-seen casing of the topic. -/
theorem trend_bucket_running_mean (memes : List AnalyzedMeme) (k : Str)
    (b : TopicTrend) (h : lookupKey (aggregateTopics memes) k = some b) :
    0 < b.count ∧
    b.count = (topicContributions memes k).length ∧
    b.avgLikes = (topicContributions memes k).sum / (b.count : ℚ) ∧
    firstSeenTopic memes k = some b.topic := by
  rw [aggregateTopics_eq_eventsFold] at h
  obtain ⟨hpos, hlen, hsum, hfirst⟩ :=
    (eventsFold_spec (allEvents memes) k).1 b h
  refine ⟨hpos, hlen, ?_, hfirst⟩
  have hc : (b.count : ℚ) ≠ 0 := by exact_mod_cast hpos.ne'
  rw [topicContributions, eq_div_iff hc, mul_comm]
  exact hsum

/-- Witness for C1 at the spec's example: posts tagged `["AI"]`, `["ai"]`,
`["Startups"]` with likes 10, 20, 5 merge into an AI bucket with
`count = 2`, `avgLikes = 15`, displayed `"AI"`. -/
theorem trend_bucket_running_mean_witness :
    lookupKey (aggregateTopics exTrendMemes) "ai".toList = some exAIBucket ∧
    (0 < exAIBucket.count ∧
     exAIBucket.count = (topicContributions exTrendMemes "ai".toList).length ∧
     exAIBucket.avgLikes =
       (topicContributions exTrendMemes "ai".toList).sum /
         (exAIBucket.count : ℚ) ∧
     firstSeenTopic exTrendMemes "ai".toList = some exAIBucket.topic) := by
  have hlk : lookupKey (aggregateTopics exTrendMemes) "ai".toList =
      some exAIBucket := by
    simp +decide only [exTrendMemes, exAIBucket, aggregateTopics, foldMeme,
      foldTopic, memeLikes, normTopic, trimL, toLowerL, lowerChar, lookupKey,
      setKey, jsIsWhitespace, List.foldl, List.map, List.dropWhile,
      List.reverse]
    norm_num
  exact ⟨hlk, trend_bucket_running_mean exTrendMemes "ai".toList exAIBucket hlk⟩

/-! ## C2 — ranking is descending in the popularity score, top 20 kept -/

/-- **C2.** For every window of posts, the returned trend list is sorted
in descending order of `count * ln(avgLikes + 1)`, contains at most 20
buckets, all drawn from the aggregation's buckets; and concretely a
bucket with `count = 5`, `avgLikes = 100` outscores one with
`count = 10`, `avgLikes = 1` because `5*ln(101) > 10*ln(2)`. -/
theorem trend_ranking_desc_top20 (memes : List AnalyzedMeme) :
    (trendsFor memes).length ≤ 20 ∧
    List.Sorted (fun a b => popScore b ≤ popScore a) (trendsFor memes) ∧
    (∀ t ∈ trendsFor memes, t ∈ (aggregateTopics memes).map Prod.snd) ∧
    (∀ t ∈ trendsFor memes,
      ∀ u ∈ (((aggregateTopics memes).map Prod.snd).mergeSort popGE).drop 20,
        popScore u ≤ popScore t) ∧
    popScore ⟨"A".toList, 5, 100, []⟩ > popScore ⟨"B".toList, 10, 1, []⟩ := by
  have hs :
      List.Pairwise (fun a b => popGE a b = true)
        (((aggregateTopics memes).map Prod.snd).mergeSort popGE) := by
    apply List.sorted_mergeSort
    · intro a b c hab hbc
      simp only [popGE, decide_eq_true_eq] at *
      exact le_trans hbc hab
    · intro a b
      have := le_total (popScore a) (popScore b)
      simp only [popGE, Bool.or_eq_true, decide_eq_true_eq]
      exact this.symm
  refine ⟨?_, ?_, ?_, ?_, ?_⟩
  · exact List.length_take_le _ _
  · have hs' := hs.sublist (List.take_sublist 20 _)
    exact hs'.imp fun h => by simpa [popGE, decide_eq_true_eq] using h
  · intro t ht
    have h1 : t ∈ ((aggregateTopics memes).map Prod.snd).mergeSort popGE :=
      List.take_subset _ _ ht
    exact ((aggregateTopics memes).map Prod.snd).mergeSort_perm popGE |>.subset h1
  · intro t ht u hu
    have hsplit := hs
    rw [← List.take_append_drop 20
      (((aggregateTopics memes).map Prod.snd).mergeSort popGE),
      List.pairwise_append] at hsplit
    have := hsplit.2.2 t ht u hu
    simpa [popGE, decide_eq_true_eq] using this
  · have h2 : Real.log 4 < Real.log 101 :=
      Real.log_lt_log (by norm_num) (by norm_num)
    have h1 : (10 : ℝ) * Real.log 2 = 5 * Real.log 4 := by
      rw [show (4 : ℝ) = 2 ^ 2 by norm_num, Real.log_pow]
      push_cast
      ring
    simp only [popScore, gt_iff_lt]
    push_cast
    norm_num
    nlinarith [h1, h2]

/-- Witness for C2: the ranked list for the example window respects the
20-bucket cap (instantiation of the general theorem). -/
theorem trend_ranking_desc_top20_witness :
    (trendsFor exTrendMemes).length ≤ 20 :=
  (trend_ranking_desc_top20 exTrendMemes).1

/-! ## C3 — the image-first parsing contract -/

theorem resolveByLabel_url_mem (posMap : List PosMapEntry) (o : Option Nat)
    (u : Str) (h : (resolveByLabel posMap o).1 = some u) :
    u ∈ posMap.map PosMapEntry.url := by
  cases o with
  | none => simp [resolveByLabel] at h
  | some p =>
      rcases hf : posMap.find? (fun m => m.position = p) with _ | e
      · simp [resolveByLabel, hf] at h
      · simp only [resolveByLabel, hf] at h
        obtain rfl : e.url = u := Option.some.inj h
        exact List.mem_map_of_mem _ (List.mem_of_find?_eq_some hf)

theorem applyOrdinalFallback_url_mem (posMap : List PosMapEntry) (idx : Nat)
    (st : Option Str × Option Nat) (u : Str)
    (h : (applyOrdinalFallback posMap idx st).1 = some u) :
    st.1 = some u ∨ u ∈ posMap.map PosMapEntry.url := by
  by_cases ht : jsTruthy st.1
  · left; simpa [applyOrdinalFallback, ht] using h
  · rcases hg : posMap[idx]? with _ | e
    · left; simpa [applyOrdinalFallback, ht, hg] using h
    · right
      simp [applyOrdinalFallback, ht, hg] at h
      subst h
      exact List.mem_map_of_mem _ (List.getElem?_mem hg)

theorem parseOneBlock_url_mem (posMap : List PosMapEntry) (idx : Nat)
    (block : Str) (u : Str)
    (h : (parseOneBlock posMap idx block).image_url = some u) :
    u ∈ posMap.map PosMapEntry.url := by
  simp only [parseOneBlock] at h
  rcases applyOrdinalFallback_url_mem _ _ _ _ h with h1 | h1
  · exact resolveByLabel_url_mem _ _ _ h1
  · exact h1

/-- **C3.** For every raw model response and positional manifest on the
image-first path: (i) every kept item has non-empty text and a truthy
image URL resolved from the manifest; (ii) kept items never outnumber the
non-empty (post-trim) blocks of the `"---"`-split response; (iii) a block
lacking a `TEXT:` marker whose `Image <n>` label resolves through the
manifest parses to the label-stripped trimmed remainder as its text and
the manifest URL at position `n`. -/
theorem imageFirst_parsing_contract (resp : Str) (posMap : List PosMapEntry) :
    (∀ m ∈ parseImageFirst resp posMap, m.text ≠ [] ∧
        ∃ u, m.image_url = some u ∧ u ≠ [] ∧ u ∈ posMap.map PosMapEntry.url) ∧
    (parseImageFirst resp posMap).length ≤ (nonemptyBlocks resp).length ∧
    (∀ idx block p e, matchTEXT block = none → scanImageNum block = some p →
        posMap.find? (fun m => m.position = p) = some e → e.url ≠ [] → 0 < p →
        parseOneBlock posMap idx block =
          ⟨trimL (stripImageLabel block), some p, some e.url⟩) := by
  refine ⟨?_, ?_, ?_⟩
  · intro m hm
    rw [parseImageFirst, List.mem_filter] at hm
    obtain ⟨hmem, hpred⟩ := hm
    have hpred' : strTruthy m.text = true ∧ jsTruthy m.image_url = true := by
      simpa using hpred
    obtain ⟨htext, hurl⟩ := hpred'
    refine ⟨by simpa [strTruthy] using htext, ?_⟩
    rcases hu : m.image_url with _ | u
    · rw [hu] at hurl; simp [jsTruthy] at hurl
    · refine ⟨u, rfl, ?_, ?_⟩
      · rw [hu] at hurl; simpa [jsTruthy, strTruthy] using hurl
      · obtain ⟨⟨idx, block⟩, _, rfl⟩ := List.mem_map.1 hmem
        exact parseOneBlock_url_mem _ _ _ _ hu
  · calc (parseImageFirst resp posMap).length
        ≤ ((nonemptyBlocks resp).enum.map fun p =>
            parseOneBlock posMap p.1 p.2).length := List.length_filter_le _ _
      _ = (nonemptyBlocks resp).length := by
          rw [List.length_map, List.enum_length]
  · intro idx block p e h1 h2 h3 h4 h5
    have hne : ¬ p = 0 := Nat.pos_iff_ne_zero.mp h5
    simp [parseOneBlock, resolveByLabel, applyOrdinalFallback, h1, h2, h3,
      jsTruthy, strTruthy, h4, hne]

/-- Witness for C3 at the spec's example: the block
`"\nImage 2: plain remainder"` (no `TEXT:` marker, labelled `Image 2:`)
parses to text `"plain remainder"` with the URL at manifest position 2,
and the full two-block example response parses accordingly. -/
theorem imageFirst_parsing_contract_witness :
    parseOneBlock exPosMap 1 "\nImage 2: plain remainder".toList =
      ⟨trimL (stripImageLabel "\nImage 2: plain remainder".toList), some 2,
        some "u2".toList⟩ ∧
    trimL (stripImageLabel "\nImage 2: plain remainder".toList) =
      "plain remainder".toList ∧
    parseImageFirst exImageResp exPosMap =
      [⟨"hello there".toList, some 1, some "u1".toList⟩,
       ⟨"plain remainder".toList, some 2, some "u2".toList⟩] := by
  refine ⟨?_, by decide, by decide⟩
  exact (imageFirst_parsing_contract exImageResp exPosMap).2.2 1
    "\nImage 2: plain remainder".toList 2 ⟨2, 7, "u2".toList⟩
    (by decide) (by decide) (by decide) (by decide) (by decide)

/-! ## C4 — the text-only parsing contract -/

/-- **C4.** For every raw model response on the text-only path, parsing
splits on the separator, extracts the text after the leading `N.` marker
(or uses the whole block trimmed), discards blocks whose parsed text is
empty, and gives every kept item null image fields; concretely
`"1. foo\n---\n2. bar\n---\n   \n"` parses to exactly `"foo"` then
`"bar"`, the trailing all-whitespace block being discarded. -/
theorem textOnly_parsing_contract (resp : Str) :
    (∀ m ∈ parseTextOnly resp, m.text ≠ [] ∧ m.image_suggestion = none ∧
        m.image_url = none) ∧
    (parseTextOnly resp).length ≤ (nonemptyBlocks resp).length ∧
    parseTextOnly exTextResp =
      [⟨"foo".toList, none, none⟩, ⟨"bar".toList, none, none⟩] := by
  refine ⟨?_, ?_, by decide⟩
  · intro m hm
    rw [parseTextOnly, List.mem_filter] at hm
    obtain ⟨hmem, hpred⟩ := hm
    obtain ⟨block, _, rfl⟩ := List.mem_map.1 hmem
    exact ⟨by simpa [strTruthy] using hpred, rfl, rfl⟩
  · calc (parseTextOnly resp).length
        ≤ ((nonemptyBlocks resp).map _).length := List.length_filter_le _ _
      _ = (nonemptyBlocks resp).length := List.length_map _ _

/-- Witness for C4: the first parsed item of the example response is
`"foo"` with null image fields (instantiation of the general clause). -/
theorem textOnly_parsing_contract_witness :
    (⟨"foo".toList, none, none⟩ : ParsedMeme) ∈ parseTextOnly exTextResp ∧
    (("foo".toList : Str) ≠ [] ∧
      (none : Option Nat) = none ∧ (none : Option Str) = none) :=
  ⟨by decide,
    (textOnly_parsing_contract exTextResp).1
      ⟨"foo".toList, none, none⟩ (by decide)⟩

/-! ## C5 — the count clamp only shapes the prompt -/

/-- Counterexample to C5 as stated: the clamp `Math.min(count, 3)` only
appears in the selection prompt's text; when the selector responds with
four resolvable image numbers, the flow selects four images and yields
four generated items, regardless of the caller's count. -/
theorem imagePath_clamp_counterexample :
    imageFirstFlow [exFourImagePost] [1, 2, 3, 4] exFourBlockResp =
      (.ok ⟨[⟨"a".toList, some 1, some "i1".toList⟩,
             ⟨"b".toList, some 2, some "i2".toList⟩,
             ⟨"c".toList, some 3, some "i3".toList⟩,
             ⟨"d".toList, some 4, some "i4".toList⟩], 4, 4⟩, 2) ∧
    ¬ (4 : Nat) ≤ 3 := by
  refine ⟨by decide, by decide⟩

/-- **C5 (amended).** The count the selection prompt requests is
`min(count, 3) ≤ 3` for every caller-supplied count; whenever the
selector returns no more image references than requested, at most 3
images are selected; and the number of yielded items never exceeds the
number of non-empty response blocks (the code enforces no direct cap of
3 on the items themselves). -/
theorem imagePath_clamp_amended (count : Nat) (catalog : List CatalogEntry)
    (sel : List Nat) (resp : Str) (posMap : List PosMapEntry)
    (h : sel.length ≤ requestedSelectCount count) :
    requestedSelectCount count ≤ 3 ∧
    (resolveSelection catalog sel).length ≤ 3 ∧
    (parseImageFirst resp posMap).length ≤ (nonemptyBlocks resp).length := by
  have hreq : requestedSelectCount count ≤ 3 := min_le_right _ _
  refine ⟨hreq, ?_, ?_⟩
  · calc (resolveSelection catalog sel).length
        ≤ ((sel.map fun n => catalog.find? fun img => img.index = n)).length :=
          List.length_filterMap_le _ _
      _ = sel.length := List.length_map _ _
      _ ≤ 3 := le_trans h hreq
  · calc (parseImageFirst resp posMap).length
        ≤ ((nonemptyBlocks resp).enum.map fun p =>
            parseOneBlock posMap p.1 p.2).length := List.length_filter_le _ _
      _ = (nonemptyBlocks resp).length := by
          rw [List.length_map, List.enum_length]

/-- Witness for the amended C5 at caller count 10 and a compliant
three-element selection. -/
theorem imagePath_clamp_amended_witness :
    ([1, 2, 3] : List Nat).length ≤ requestedSelectCount 10 ∧
    (requestedSelectCount 10 ≤ 3 ∧
     (resolveSelection (buildCatalog [exFourImagePost]) [1, 2, 3]).length ≤ 3 ∧
     (parseImageFirst exFourBlockResp
        (buildPositionMap (resolveSelection (buildCatalog [exFourImagePost])
          [1, 2, 3]))).length ≤
       (nonemptyBlocks exFourBlockResp).length) :=
  ⟨by decide,
    imagePath_clamp_amended 10 (buildCatalog [exFourImagePost]) [1, 2, 3]
      exFourBlockResp
      (buildPositionMap (resolveSelection (buildCatalog [exFourImagePost])
        [1, 2, 3]))
      (by decide)⟩

/-! ## C6 — resolution of the selector's choices and the empty guard -/

/-- Counterexample to C6 as stated: a selection whose single number
resolves to no catalog entry yields an empty resolved subset, yet the
request does not fail with `NoSuitableImages` — the emptiness guard runs
on the raw selection list before resolution, so the flow proceeds to the
text-generation call (two model calls, success with zero items). -/
theorem selector_resolution_counterexample :
    resolveSelection (buildCatalog [exImagePost]) [999] = [] ∧
    imageFirstFlow [exImagePost] [999] "TEXT: hi".toList =
      (.ok ⟨[], 0, 1⟩, 2) := by
  refine ⟨by decide, by decide⟩

/-- **C6 (amended).** The resolved subset consists of the entries whose
returned numbers match a known catalog index, in the order chosen, with
unresolvable numbers silently dropped.  The `NoSuitableImages` failure is
raised exactly when the selector returns an empty selection *list*; a
non-empty but entirely unresolvable selection instead proceeds to text
generation with zero selected images. -/
theorem selector_resolution_amended (recent : List Post) (sel : List Nat)
    (resp : Str) (catalog : List CatalogEntry)
    (himg : (recent.filter postHasImages).length ≠ 0) :
    (resolveSelection catalog sel =
      sel.filterMap fun n => catalog.find? fun img => img.index = n) ∧
    (∀ e ∈ resolveSelection catalog sel, e ∈ catalog ∧ e.index ∈ sel) ∧
    (sel = [] →
      imageFirstFlow recent sel resp = (.error .NoSuitableImages, 1)) ∧
    (sel ≠ [] →
      imageFirstFlow recent sel resp =
        (.ok ⟨parseImageFirst resp
            (buildPositionMap (resolveSelection
              (buildCatalog (recent.filter postHasImages)) sel)),
          (resolveSelection (buildCatalog (recent.filter postHasImages))
            sel).length,
          (buildCatalog (recent.filter postHasImages)).length⟩, 2)) := by
  refine ⟨?_, ?_, ?_, ?_⟩
  · rw [resolveSelection, List.filterMap_map]
    rfl
  · intro e he
    rw [resolveSelection, List.filterMap_map] at he
    obtain ⟨n, hn, hfind⟩ := List.mem_filterMap.1 he
    refine ⟨List.mem_of_find?_eq_some hfind, ?_⟩
    have := List.find?_some hfind
    simp only [decide_eq_true_eq] at this
    rwa [this]
  · intro hsel
    subst hsel
    simp [imageFirstFlow, himg]
  · intro hsel
    have hlen : ¬ sel.length = 0 := by simpa [List.length_eq_zero] using hsel
    simp [imageFirstFlow, himg, hlen]

/-- Witness for the amended C6 at a concrete catalog and a mixed
resolvable/unresolvable selection. -/
theorem selector_resolution_amended_witness :
    resolveSelection (buildCatalog [exFourImagePost]) [4, 999, 2] =
      ([4, 999, 2].filterMap fun n =>
        (buildCatalog [exFourImagePost]).find? fun img => img.index = n) :=
  (selector_resolution_amended [exFourImagePost] [4, 999, 2] []
    (buildCatalog [exFourImagePost]) (by decide)).1

/-! ## C7 — NoImagesAvailable short-circuits before any model call -/

/-- **C7.** If none of the most recent collected posts has one or more
images, the image-first flow fails with `NoImagesAvailable` having issued
zero model calls — uniformly in whatever the selector or generator would
have answered, so text generation is never reached. -/
theorem imageFirst_noImages_shortCircuit (recent : List Post)
    (selResp : List Nat) (genResp : Str)
    (h : ∀ m ∈ recent, postHasImages m = false) :
    imageFirstFlow recent selResp genResp = (.error .NoImagesAvailable, 0) := by
  have hf : recent.filter postHasImages = [] :=
    List.filter_eq_nil_iff.mpr (by simpa using h)
  simp [imageFirstFlow, hf]

/-- Witness for C7 on a concrete corpus with two imageless posts. -/
theorem imageFirst_noImages_shortCircuit_witness :
    (∀ m ∈ exNoImagePosts, postHasImages m = false) ∧
    imageFirstFlow exNoImagePosts [1, 2] "TEXT: hi".toList =
      (.error .NoImagesAvailable, 0) :=
  ⟨by decide,
    imageFirst_noImages_shortCircuit exNoImagePosts [1, 2] "TEXT: hi".toList
      (by decide)⟩

/-! ## C8 — NoAnalyzedContent short-circuits before the model call -/

/-- **C8.** A style-guide generation request over zero analyzed posts
fails with the no-analyzed-content error and issues zero model calls,
uniformly in the would-be model content and in whether the save would
have failed. -/
theorem styleGuide_noAnalyzed_shortCircuit (content : Str) (saveError : Bool) :
    styleGuidePOST false (some []) content saveError =
      ({ success := false, guide := none, saved := none, memeCount := none,
         errorMsg := some noAnalyzedMsg }, 0) := by
  simp [styleGuidePOST]

/-! ## C9 — save failure after a successful model call is not a failure -/

/-- **C9.** When the model call succeeds but persisting the snapshot
fails, the handler still returns a success outcome carrying the
synthesized content, together with the explicit `saved = false` flag —
one model call was made and the case is not reported as a failure. -/
theorem styleGuide_saveFailure_stillSuccess (memes : List Post) (content : Str)
    (h : memes ≠ []) :
    styleGuidePOST false (some memes) content true =
      ({ success := true, guide := some content, saved := some false,
         memeCount := none, errorMsg := none }, 1) := by
  have hlen : ¬ memes.length = 0 := by simpa [List.length_eq_zero] using h
  simp [styleGuidePOST, hlen]

/-- Witness for C9 on a one-post corpus. -/
theorem styleGuide_saveFailure_stillSuccess_witness :
    ([exImagePost] : List Post) ≠ [] ∧
    styleGuidePOST false (some [exImagePost]) "guide".toList true =
      ({ success := true, guide := some "guide".toList, saved := some false,
         memeCount := none, errorMsg := none }, 1) :=
  ⟨by decide,
    styleGuide_saveFailure_stillSuccess [exImagePost] "guide".toList
      (by decide)⟩

/-! ## C10 — persisted rows never carry the image URL -/

/-- **C10.** On both generation paths, the record written per generated
meme carries only topic, style, format, the item's text, and an empty
reference list; the stored row's `image_url` is null even when the
corresponding returned item has a resolved URL (the insert payload simply
has no such column). -/
theorem persisted_rows_null_image_url (topic style format : Str)
    (ms : List ParsedMeme) (r : GeneratedMemeRow) :
    (r ∈ persistImageFirst topic style format ms →
      r.image_url = none ∧ r.reference_meme_ids = [] ∧ r.topic = topic ∧
      r.style = style ∧ r.format = format ∧
      ∃ m ∈ ms, r.text_content = m.text) ∧
    (r ∈ persistTextOnly topic style ms →
      r.image_url = none ∧ r.reference_meme_ids = [] ∧ r.topic = topic ∧
      r.style = style ∧ r.format = "text-only".toList ∧
      ∃ m ∈ ms, r.text_content = m.text) := by
  constructor
  · intro hr
    obtain ⟨m, hm, rfl⟩ := List.mem_map.1 hr
    exact ⟨rfl, rfl, rfl, rfl, rfl, m, hm, rfl⟩
  · intro hr
    obtain ⟨m, hm, rfl⟩ := List.mem_map.1 hr
    exact ⟨rfl, rfl, rfl, rfl, rfl, m, hm, rfl⟩

/-- Witness for C10: a parsed item carrying a resolved URL is stored with
a null `image_url` on the image-first path. -/
theorem persisted_rows_null_image_url_witness :
    (storedRow (imageFirstInsert "t".toList "ironic".toList "both".toList
        ⟨"cap".toList, some 1, some "u".toList⟩) ∈
      persistImageFirst "t".toList "ironic".toList "both".toList
        [⟨"cap".toList, some 1, some "u".toList⟩]) ∧
    ((storedRow (imageFirstInsert "t".toList "ironic".toList "both".toList
        ⟨"cap".toList, some 1, some "u".toList⟩)).image_url = none ∧
     (storedRow (imageFirstInsert "t".toList "ironic".toList "both".toList
        ⟨"cap".toList, some 1, some "u".toList⟩)).reference_meme_ids = [] ∧
     (storedRow (imageFirstInsert "t".toList "ironic".toList "both".toList
        ⟨"cap".toList, some 1, some "u".toList⟩)).topic = "t".toList ∧
     (storedRow (imageFirstInsert "t".toList "ironic".toList "both".toList
        ⟨"cap".toList, some 1, some "u".toList⟩)).style = "ironic".toList ∧
     (storedRow (imageFirstInsert "t".toList "ironic".toList "both".toList
        ⟨"cap".toList, some 1, some "u".toList⟩)).format = "both".toList ∧
     ∃ m ∈ ([⟨"cap".toList, some 1, some "u".toList⟩] : List ParsedMeme),
       (storedRow (imageFirstInsert "t".toList "ironic".toList "both".toList
          ⟨"cap".toList, some 1, some "u".toList⟩)).text_content = m.text) :=
  ⟨by decide,
    (persisted_rows_null_image_url "t".toList "ironic".toList "both".toList
      [⟨"cap".toList, some 1, some "u".toList⟩] _).1 (by decide)⟩
